import Mathlib

/-!
Shallow embedding of the Attester reconciliation loop from
`src/controllers/attester_controller.go` (package `controllers`).

The embedding models one reconciliation pass (`Reconcile`) as a pure
function of the current world (resource store, secret store, in-memory
attester registry) and an environment that supplies the external
collaborators of spec section 6 (policy compiler, signer backend) together
with fault injection for every fallible store call.  Each persisted write
that actually reaches a store is logged in the pass result, the Go
`(ctrl.Result, error)` return is modelled as `Option RErr`, and an
out-of-bounds slice access (a Go panic) is tracked by the `panicked` flag.
-/

namespace Rode

/-- Status of a condition, mirroring `rodev1alpha1.ConditionStatus`
(`True` / `False` / `Unknown`). -/
inductive ConditionStatus where
  | ctrue
  | cfalse
  | cunknown
deriving DecidableEq, Repr

/-- Condition type, mirroring `rodev1alpha1.ConditionType`
(`ConditionCompiled` / `ConditionSecret`). -/
inductive ConditionType where
  | compiled
  | secret
deriving DecidableEq, Repr

/-- One status condition, mirroring `rodev1alpha1.Condition`. -/
structure Condition where
  type : ConditionType
  status : ConditionStatus
deriving DecidableEq, Repr

/-- Opaque PGP key material stored in a secret (the `Data["keys"]` bytes). -/
abbrev KeyMaterial := String

/-- Opaque signer capability produced by the signer backend. -/
abbrev Signer := Nat

/-- Opaque compiled policy artifact produced by `attester.NewPolicy`. -/
abbrev Policy := Nat

/-- The Attester resource: deletion marker and finalizer list from
`ObjectMeta`, `Spec.Policy` and `Spec.PgpSecret`, and
`Status.Conditions`. -/
structure Attester where
  deletionPending : Bool
  finalizers : List String
  policySrc : String
  pgpSecret : String
  conditions : List Condition
deriving DecidableEq, Repr

/-- A registry entry: the value `attester.NewAttester(name, policy, signer)`
stored in the `r.Attesters` map. -/
structure AttEntry where
  name : String
  policy : Policy
  signer : Signer
deriving DecidableEq, Repr

/-- The reconcile request: `req.NamespacedName`. -/
structure Req where
  name : String
  namesp : String
deriving DecidableEq, Repr

/-- String form of the namespaced name, `req.NamespacedName.String()`. -/
def NamespacedNameString (req : Req) : String :=
  req.namesp ++ "/" ++ req.name

/-- Association-list lookup (model of Go map read). -/
def lookupA {α : Type} (m : List (String × α)) (k : String) : Option α :=
  match m with
  | [] => none
  | (k', v) :: rest => if k' = k then some v else lookupA rest k

/-- Association-list insert-or-replace (model of Go map assignment). -/
def insertA {α : Type} (m : List (String × α)) (k : String) (v : α) :
    List (String × α) :=
  match m with
  | [] => [(k, v)]
  | (k', v') :: rest =>
      if k' = k then (k, v) :: rest else (k', v') :: insertA rest k v

/-- Association-list removal (model of Go map `delete` / store delete). -/
def eraseA {α : Type} (m : List (String × α)) (k : String) :
    List (String × α) :=
  match m with
  | [] => []
  | (k', v') :: rest => if k' = k then rest else (k', v') :: eraseA rest k

/-- The world visible to one pass: the stored resource (a single identity
is modelled), the secret store keyed by secret name, and the in-memory
`r.Attesters` registry keyed by namespaced name. -/
structure World where
  resource : Option Attester
  secrets : List (String × KeyMaterial)
  registry : List (String × AttEntry)
deriving DecidableEq, Repr

/-- Environment of one pass: deterministic oracles for the external
collaborators of spec section 6 (`compile` for `attester.NewPolicy`,
`parseSigner` for `attester.ReadSigner`, `newSecretResult` for
`attester.NewSecret`) and one fault-injection flag per fallible store
call site in the Go source. -/
structure Env where
  getOk : Bool
  finalizerUpdateOk : Bool
  removeFinalizerUpdateOk : Bool
  deleteSecretOk : Bool
  initStatusOk : Bool
  compiledFalseStatusOk : Bool
  compiledTrueStatusOk : Bool
  pgpSecretUpdateOk : Bool
  getSecretStoreOk : Bool
  newSecretResult : Option (KeyMaterial × Signer)
  secretFalseCreateStatusOk : Bool
  secretTrueCreateStatusOk : Bool
  secretFalseParseStatusOk : Bool
  secretTrueParseStatusOk : Bool
  compile : String → String → Option Policy
  parseSigner : KeyMaterial → Option Signer

/-- Distinguishable error values returned by a pass, tagged by origin. -/
inductive RErr where
  | getErr
  | updateErr
  | statusErr
  | deleteSecretErr
  | secretGetErr
deriving DecidableEq, Repr

/-- One persisted write performed by a pass. -/
inductive Write where
  | update
  | statusUpdate
  | secretCreate
  | secretDelete
deriving DecidableEq, Repr

/-- Result of one pass: the new world, the successful persisted writes in
order, the returned error (`none` models a nil Go error), and whether an
out-of-bounds conditions access (Go panic) occurred. -/
structure PassResult where
  world : World
  writes : List Write
  res : Option RErr
  panicked : Bool
deriving DecidableEq, Repr

/-- The finalizer marker `attesterFinalizerName`. -/
def attesterFinalizerName : String := "attester.finalizers.rode.liatr.io"

/-- Modelled from the spec: `containsFinalizer` from `api/util` (not under
`src/`) tests whether the deletion-guard marker is present in the
finalizer list. -/
def containsFinalizer (fs : List String) (f : String) : Bool :=
  fs.contains f

/-- Modelled from the spec: `removeFinalizer` from `api/util` (not under
`src/`) strips the deletion-guard marker from the finalizer list. -/
def removeFinalizer (fs : List String) (f : String) : List String :=
  fs.filter (fun x => x != f)

/-- Persist a full-object `r.Update`: spec and metadata are written; the
status subresource keeps its stored value.  When the resource is marked
for deletion and the last finalizer was removed, the store finalizes the
deletion and the resource disappears. -/
def persistUpdate (w : World) (att : Attester) : World :=
  if att.deletionPending && att.finalizers.isEmpty then
    { w with resource := none }
  else
    match w.resource with
    | some a => { w with resource := some { att with conditions := a.conditions } }
    | none => { w with resource := some att }

/-- Persist a `r.Status().Update`: only the status subresource (the
conditions) is written. -/
def persistStatus (w : World) (att : Attester) : World :=
  match w.resource with
  | some a => { w with resource := some { a with conditions := att.conditions } }
  | none => w

/-- In-memory slot write of `updateStatus`: `Conditions[0].Status = s` for
`ConditionCompiled`, `Conditions[1].Status = s` for `ConditionSecret`.
`none` models the Go index-out-of-range panic. -/
def setCond (conds : List Condition) (t : ConditionType) (s : ConditionStatus) :
    Option (List Condition) :=
  match t, conds with
  | .compiled, c0 :: rest => some ({ c0 with status := s } :: rest)
  | .secret, c0 :: c1 :: rest => some (c0 :: { c1 with status := s } :: rest)
  | _, _ => none

/-- Model of `AttesterReconciler.updateStatus`: write the fixed slot for
the condition type, then persist the status once.  Returns `none` on an
out-of-bounds slot write (panic); otherwise the mutated in-memory
resource, the new world, the write log and the returned error. -/
def updateStatus (ok : Bool) (w : World) (att : Attester)
    (t : ConditionType) (s : ConditionStatus) :
    Option (Attester × World × List Write × Option RErr) :=
  match setCond att.conditions t s with
  | none => none
  | some conds =>
      let att' := { att with conditions := conds }
      if ok then some (att', persistStatus w att', [Write.statusUpdate], none)
      else some (att', w, [], some RErr.statusErr)

/-- Model of `AttesterReconciler.registerFinalizer`: if the resource is not
being deleted and lacks the marker, append it and `r.Update`.  A persist
failure is returned to the caller (which only logs it), leaving the marker
present in memory but not in the store. -/
def registerFinalizer (env : Env) (w : World) (att : Attester) :
    Attester × World × List Write :=
  if !att.deletionPending && !containsFinalizer att.finalizers attesterFinalizerName then
    let att' := { att with finalizers := att.finalizers ++ [attesterFinalizerName] }
    if env.finalizerUpdateOk then (att', persistUpdate w att', [Write.update])
    else (att', w, [])
  else (att, w, [])

/-- The two conditions appended by the initialization branch, in source
order: `ConditionCompiled` then `ConditionSecret`, both `False`. -/
def initConds : List Condition :=
  [{ type := ConditionType.compiled, status := ConditionStatus.cfalse },
   { type := ConditionType.secret, status := ConditionStatus.cfalse }]

/-- Model of `attester.NewAttester(name, policy, signer)`. -/
def NewAttester (name : String) (policy : Policy) (signer : Signer) : AttEntry :=
  { name := name, policy := policy, signer := signer }

/-- The deletion branch (source lines 79-103): remove the marker,
`r.Update` (returning the error on failure before anything else), then
best-effort `attester.DeleteSecret` whose error is logged, then delete the
registry entry, and return the secret-deletion error value. -/
def deletionBranch (env : Env) (req : Req) (w : World) (att : Attester)
    (ws : List Write) : PassResult :=
  let att' := { att with finalizers := removeFinalizer att.finalizers attesterFinalizerName }
  if env.removeFinalizerUpdateOk then
    let w1 := persistUpdate w att'
    let step :=
      if env.deleteSecretOk then
        ({ w1 with secrets := eraseA w1.secrets att'.pgpSecret },
         [Write.secretDelete], (none : Option RErr))
      else (w1, [], some RErr.deleteSecretErr)
    let w3 := { step.1 with registry := eraseA step.1.registry (NamespacedNameString req) }
    ⟨w3, ws ++ [Write.update] ++ step.2.1, step.2.2, false⟩
  else ⟨w, ws, some RErr.updateErr, false⟩

/-- Secret handling and registry publish (source lines 151-223): default
the secret reference and stop, or resolve the secret, derive a signer
(creating the secret when absent, parsing stored key material when
present), update the `SecretReady` condition, and on success publish the
`(policy, signer)` pair into the registry. -/
def secretPhase (env : Env) (req : Req) (w : World) (att : Attester)
    (policy : Policy) (ws : List Write) : PassResult :=
  if att.pgpSecret = "" then
    let att' := { att with pgpSecret := req.name }
    if env.pgpSecretUpdateOk then
      ⟨persistUpdate w att', ws ++ [Write.update], none, false⟩
    else ⟨w, ws, some RErr.updateErr, false⟩
  else
    if env.getSecretStoreOk then
      match lookupA w.secrets att.pgpSecret with
      | none =>
          match env.newSecretResult with
          | none =>
              match updateStatus env.secretFalseCreateStatusOk w att
                  ConditionType.secret ConditionStatus.cfalse with
              | none => ⟨w, ws, none, true⟩
              | some (_, w1, ws1, err) => ⟨w1, ws ++ ws1, err, false⟩
          | some (km, sg) =>
              let w1 := { w with secrets := insertA w.secrets att.pgpSecret km }
              match updateStatus env.secretTrueCreateStatusOk w1 att
                  ConditionType.secret ConditionStatus.ctrue with
              | none => ⟨w1, ws ++ [Write.secretCreate], none, true⟩
              | some (_, w2, ws2, _) =>
                  let key := NamespacedNameString req
                  ⟨{ w2 with registry := insertA w2.registry key (NewAttester key policy sg) },
                   ws ++ [Write.secretCreate] ++ ws2, none, false⟩
      | some km =>
          match env.parseSigner km with
          | none =>
              match updateStatus env.secretFalseParseStatusOk w att
                  ConditionType.secret ConditionStatus.cfalse with
              | none => ⟨w, ws, none, true⟩
              | some (_, w1, ws1, err) => ⟨w1, ws ++ ws1, err, false⟩
          | some sg =>
              match updateStatus env.secretTrueParseStatusOk w att
                  ConditionType.secret ConditionStatus.ctrue with
              | none => ⟨w, ws, none, true⟩
              | some (_, w1, ws1, _) =>
                  let key := NamespacedNameString req
                  ⟨{ w1 with registry := insertA w1.registry key (NewAttester key policy sg) },
                   ws ++ ws1, none, false⟩
    else ⟨w, ws, some RErr.secretGetErr, false⟩

/-- The policy compilation gate and everything after it (source lines
127-223): recompile unconditionally; on failure set `Compiled=False`,
persist and return the status-write outcome (the compile error itself is
only logged); on success, if `Conditions[0]` is not `True`, set it `True`
and return nil regardless of the persist outcome; otherwise continue with
secret handling. -/
def afterInit (env : Env) (req : Req) (w : World) (att : Attester)
    (ws : List Write) : PassResult :=
  match env.compile req.name att.policySrc with
  | none =>
      match updateStatus env.compiledFalseStatusOk w att
          ConditionType.compiled ConditionStatus.cfalse with
      | none => ⟨w, ws, none, true⟩
      | some (_, w1, ws1, err) => ⟨w1, ws ++ ws1, err, false⟩
  | some policy =>
      match att.conditions.head? with
      | none => ⟨w, ws, none, true⟩
      | some c0 =>
          if c0.status != ConditionStatus.ctrue then
            match updateStatus env.compiledTrueStatusOk w att
                ConditionType.compiled ConditionStatus.ctrue with
            | none => ⟨w, ws, none, true⟩
            | some (_, w1, ws1, _) => ⟨w1, ws ++ ws1, none, false⟩
          else secretPhase env req w att policy ws

/-- Model of `AttesterReconciler.Reconcile`: load the resource (NotFound
is ignored), register the finalizer (errors only logged), take the
deletion branch when the resource is deleting and carries the marker,
initialize the two conditions when none exist, then run the compile gate
and the secret phase. -/
def Reconcile (env : Env) (req : Req) (w : World) : PassResult :=
  if env.getOk then
    match w.resource with
    | none => ⟨w, [], none, false⟩
    | some att0 =>
        let rf := registerFinalizer env w att0
        let att1 := rf.1
        let w1 := rf.2.1
        let ws1 := rf.2.2
        if att1.deletionPending && containsFinalizer att1.finalizers attesterFinalizerName then
          deletionBranch env req w1 att1 ws1
        else
          if att1.conditions.isEmpty then
            let att2 := { att1 with conditions := initConds }
            if env.initStatusOk then
              afterInit env req (persistStatus w1 att2) att2 (ws1 ++ [Write.statusUpdate])
            else ⟨w1, ws1, some RErr.statusErr, false⟩
          else afterInit env req w1 att1 ws1
  else ⟨w, [], some RErr.getErr, false⟩

/-- Model of `AttesterReconciler.ListAttesters`: returns the registry. -/
def ListAttesters (w : World) : List (String × AttEntry) :=
  w.registry

/-- An event of the surrounding system: either one reconciliation pass or
an external edit of the resource's policy source. -/
inductive Event where
  | reconcilePass (env : Env) (req : Req)
  | editPolicy (src : String)

/-- Apply one event to the world. -/
def applyEvent (w : World) (e : Event) : World :=
  match e with
  | .reconcilePass env req => (Reconcile env req w).world
  | .editPolicy s =>
      match w.resource with
      | some a => { w with resource := some { a with policySrc := s } }
      | none => w

/-- Run a sequence of events from an initial world. -/
def runEvents (w : World) (es : List Event) : World :=
  es.foldl applyEvent w

/-- The `Compiled` condition (slot 0) of the stored resource, if any. -/
def storedCompiledStatus (w : World) : Option ConditionStatus :=
  match w.resource with
  | some a => a.conditions.head?.map Condition.status
  | none => none

/-- The finalizer list of the stored resource, if any. -/
def storedFinalizers (w : World) : Option (List String) :=
  match w.resource with
  | some a => some a.finalizers
  | none => none

/-- An environment in which every store call succeeds, policy source
`"good"` compiles (to artifact `1`) and any other source fails to
compile, and key material `"km"` parses into signer `7`. -/
def envOk : Env :=
  { getOk := true, finalizerUpdateOk := true, removeFinalizerUpdateOk := true,
    deleteSecretOk := true, initStatusOk := true, compiledFalseStatusOk := true,
    compiledTrueStatusOk := true, pgpSecretUpdateOk := true, getSecretStoreOk := true,
    newSecretResult := some ("km", 7),
    secretFalseCreateStatusOk := true, secretTrueCreateStatusOk := true,
    secretFalseParseStatusOk := true, secretTrueParseStatusOk := true,
    compile := fun _ src => if src = "good" then some 1 else none,
    parseSigner := fun km => if km = "km" then some 7 else none }

/-- A concrete request, namespaced name `default/test`. -/
def req1 : Req := { name := "test", namesp := "default" }

/-- A freshly created resource: valid policy source, no finalizer, no
conditions, no secret reference. -/
def att0 : Attester :=
  { deletionPending := false, finalizers := [], policySrc := "good",
    pgpSecret := "", conditions := [] }

/-- World holding the fresh resource `att0`; empty secret store and
registry. -/
def w0 : World :=
  { resource := some att0, secrets := [], registry := [] }

/-- The event trace behind the registry-consistency counterexample: three
passes converge the fresh resource (finalizer, conditions, secret,
registry entry), then the policy source is edited to a non-compiling one
and a fourth pass runs, persisting `Compiled=False`. -/
def traceC1 : List Event :=
  [Event.reconcilePass envOk req1, Event.reconcilePass envOk req1,
   Event.reconcilePass envOk req1, Event.editPolicy "bad",
   Event.reconcilePass envOk req1]

/-- The world reached by `traceC1`. -/
def wC1 : World := runEvents w0 traceC1

/-- A fully converged resource: finalizer present, both conditions `True`,
secret reference assigned, secret stored and parseable. -/
def attConv : Attester :=
  { deletionPending := false, finalizers := [attesterFinalizerName],
    policySrc := "good", pgpSecret := "test",
    conditions := [{ type := ConditionType.compiled, status := ConditionStatus.ctrue },
                   { type := ConditionType.secret, status := ConditionStatus.ctrue }] }

/-- A converged world: `attConv` stored, its secret present, the registry
entry published. -/
def wConv : World :=
  { resource := some attConv,
    secrets := [("test", "km")],
    registry := [("default/test", NewAttester "default/test" 1 7)] }

/-- A resource whose policy source does not compile, with initialized
(both-`False`) conditions. -/
def attBad : Attester :=
  { deletionPending := false, finalizers := [attesterFinalizerName],
    policySrc := "bad", pgpSecret := "test",
    conditions := [{ type := ConditionType.compiled, status := ConditionStatus.cfalse },
                   { type := ConditionType.secret, status := ConditionStatus.cfalse }] }

/-- World holding `attBad`, with nothing else in the stores. -/
def wBad : World :=
  { resource := some attBad, secrets := [], registry := [] }

/-- A converged resource that has been marked for deletion. -/
def attDel : Attester :=
  { deletionPending := true, finalizers := [attesterFinalizerName],
    policySrc := "good", pgpSecret := "test",
    conditions := [{ type := ConditionType.compiled, status := ConditionStatus.ctrue },
                   { type := ConditionType.secret, status := ConditionStatus.ctrue }] }

/-- World holding `attDel` together with its secret and registry entry. -/
def wDel : World :=
  { resource := some attDel,
    secrets := [("test", "km")],
    registry := [("default/test", NewAttester "default/test" 1 7)] }

/-- Environment in which the secret deletion fails. -/
def envDelFail : Env := { envOk with deleteSecretOk := false }

/-- Environment in which the finalizer-registration `Update` fails. -/
def envNoFin : Env := { envOk with finalizerUpdateOk := false }

/-- Environment in which the finalizer-removal `Update` fails. -/
def envNoRemove : Env := { envOk with removeFinalizerUpdateOk := false }

/-- A resource with `Compiled=True`, an assigned secret reference and no
finalizer (for the finalizer-ordering counterexample). -/
def attNoFin : Attester :=
  { deletionPending := false, finalizers := [],
    policySrc := "good", pgpSecret := "test",
    conditions := [{ type := ConditionType.compiled, status := ConditionStatus.ctrue },
                   { type := ConditionType.secret, status := ConditionStatus.ctrue }] }

/-- World holding `attNoFin` with an empty secret store, so a pass will
create the secret. -/
def wNoFin : World :=
  { resource := some attNoFin, secrets := [], registry := [] }

/-- A converged resource whose stored key material is malformed. -/
def attParse : Attester := attConv

/-- World holding `attParse` with unparseable key material stored. -/
def wParse : World :=
  { resource := some attParse, secrets := [("test", "garbage")], registry := [] }

/-- A resource marked for deletion that does not carry the finalizer. -/
def attDelNoFin : Attester :=
  { deletionPending := true, finalizers := [],
    policySrc := "good", pgpSecret := "test",
    conditions := [{ type := ConditionType.compiled, status := ConditionStatus.ctrue },
                   { type := ConditionType.secret, status := ConditionStatus.ctrue }] }

/-- World holding `attDelNoFin` together with its secret. -/
def wDelNoFin : World :=
  { resource := some attDelNoFin, secrets := [("test", "km")], registry := [] }

/-- A fresh resource with empty conditions (for condition initialization). -/
def attInit : Attester :=
  { deletionPending := false, finalizers := [attesterFinalizerName],
    policySrc := "good", pgpSecret := "test", conditions := [] }

/-- World holding `attInit`. -/
def wInit : World :=
  { resource := some attInit, secrets := [], registry := [] }

/-! Basic lemmas about the store model and the small helpers. -/

theorem lookupA_insertA {α : Type} (m : List (String × α)) (k k' : String) (v : α) :
    lookupA (insertA m k v) k' = if k = k' then some v else lookupA m k' := by
  induction m with
  | nil => simp [insertA, lookupA]
  | cons hd tl ih =>
      obtain ⟨k0, v0⟩ := hd
      by_cases h0 : k0 = k
      · subst h0
        by_cases h1 : k0 = k' <;> simp [insertA, lookupA, h1]
      · by_cases h1 : k0 = k'
        · have h2 : ¬(k = k') := fun h => h0 (h1.trans h.symm)
          have h3 : ¬(k' = k) := fun h => h2 h.symm
          simp [insertA, lookupA, h1, h2, h3]
        · simp [insertA, lookupA, h0, h1, ih]

theorem lookupA_eraseA_none {α : Type} (m : List (String × α)) (k k' : String)
    (h : lookupA m k' = none) : lookupA (eraseA m k) k' = none := by
  induction m with
  | nil => simpa [eraseA] using h
  | cons hd tl ih =>
      obtain ⟨k0, v0⟩ := hd
      simp only [lookupA] at h
      by_cases h0 : k0 = k'
      · rw [if_pos h0] at h
        simp at h
      · rw [if_neg h0] at h
        by_cases h1 : k0 = k
        · simpa [eraseA, h1] using h
        · simp [eraseA, h1, lookupA, h0, ih h]

theorem containsFinalizer_append_self (fs : List String) (f : String) :
    containsFinalizer (fs ++ [f]) f = true := by
  simp [containsFinalizer]

theorem persistUpdate_registry (w : World) (att : Attester) :
    (persistUpdate w att).registry = w.registry := by
  unfold persistUpdate
  repeat' split
  all_goals rfl

theorem persistUpdate_secrets (w : World) (att : Attester) :
    (persistUpdate w att).secrets = w.secrets := by
  unfold persistUpdate
  repeat' split
  all_goals rfl

theorem persistStatus_registry (w : World) (att : Attester) :
    (persistStatus w att).registry = w.registry := by
  unfold persistStatus
  repeat' split
  all_goals rfl

theorem persistStatus_secrets (w : World) (att : Attester) :
    (persistStatus w att).secrets = w.secrets := by
  unfold persistStatus
  repeat' split
  all_goals rfl

/-! Lemmas relating the result of `registerFinalizer` to its input. -/

theorem registerFinalizer_att_conditions (env : Env) (w : World) (att : Attester) :
    ((registerFinalizer env w att).1).conditions = att.conditions := by
  unfold registerFinalizer
  by_cases h1 : (!att.deletionPending && !containsFinalizer att.finalizers attesterFinalizerName) = true
  · by_cases h2 : env.finalizerUpdateOk = true <;> simp [h1, h2]
  · simp [h1]

theorem registerFinalizer_att_policySrc (env : Env) (w : World) (att : Attester) :
    ((registerFinalizer env w att).1).policySrc = att.policySrc := by
  unfold registerFinalizer
  by_cases h1 : (!att.deletionPending && !containsFinalizer att.finalizers attesterFinalizerName) = true
  · by_cases h2 : env.finalizerUpdateOk = true <;> simp [h1, h2]
  · simp [h1]

theorem registerFinalizer_att_deletionPending (env : Env) (w : World) (att : Attester) :
    ((registerFinalizer env w att).1).deletionPending = att.deletionPending := by
  unfold registerFinalizer
  by_cases h1 : (!att.deletionPending && !containsFinalizer att.finalizers attesterFinalizerName) = true
  · by_cases h2 : env.finalizerUpdateOk = true <;> simp [h1, h2]
  · simp [h1]

theorem registerFinalizer_world_registry (env : Env) (w : World) (att : Attester) :
    ((registerFinalizer env w att).2.1).registry = w.registry := by
  unfold registerFinalizer
  by_cases h1 : (!att.deletionPending && !containsFinalizer att.finalizers attesterFinalizerName) = true
  · by_cases h2 : env.finalizerUpdateOk = true <;> simp [h1, h2, persistUpdate_registry]
  · simp [h1]

theorem registerFinalizer_world_secrets (env : Env) (w : World) (att : Attester) :
    ((registerFinalizer env w att).2.1).secrets = w.secrets := by
  unfold registerFinalizer
  by_cases h1 : (!att.deletionPending && !containsFinalizer att.finalizers attesterFinalizerName) = true
  · by_cases h2 : env.finalizerUpdateOk = true <;> simp [h1, h2, persistUpdate_secrets]
  · simp [h1]

theorem registerFinalizer_writes (env : Env) (w : World) (att : Attester) :
    ((registerFinalizer env w att).2.2) = [] ∨
    ((registerFinalizer env w att).2.2) = [Write.update] := by
  unfold registerFinalizer
  by_cases h1 : (!att.deletionPending && !containsFinalizer att.finalizers attesterFinalizerName) = true
  · by_cases h2 : env.finalizerUpdateOk = true <;> simp [h1, h2]
  · simp [h1]

theorem registerFinalizer_resource (env : Env) (w : World) (att : Attester)
    (r : w.resource = some att) (d : att.deletionPending = false) :
    ∃ a1, ((registerFinalizer env w att).2.1).resource = some a1 ∧
          a1.conditions = att.conditions := by
  unfold registerFinalizer
  by_cases h1 : containsFinalizer att.finalizers attesterFinalizerName
  · simp [d, h1, r]
  · by_cases h2 : env.finalizerUpdateOk = true <;>
      simp [d, h1, h2, persistUpdate, r]

theorem registerFinalizer_marker (env : Env) (w : World) (att : Attester)
    (r : w.resource = some att) (d : att.deletionPending = false)
    (y : env.finalizerUpdateOk = true) :
    ∃ a1, ((registerFinalizer env w att).2.1).resource = some a1 ∧
          containsFinalizer a1.finalizers attesterFinalizerName = true := by
  unfold registerFinalizer
  by_cases h1 : containsFinalizer att.finalizers attesterFinalizerName
  · simp [d, h1, r]
  · simp [d, h1, y, persistUpdate, r]
    exact containsFinalizer_append_self att.finalizers attesterFinalizerName

/-! Lemmas characterising a successful call of `updateStatus`. -/

theorem ite_some_some_ne_none {α : Type} (c : Prop) [Decidable c] (a b : α) :
    (if c then some a else some b) ≠ none := by
  split <;> simp

theorem updateStatus_some_world_registry {ok : Bool} {w : World} {att : Attester}
    {t : ConditionType} {s : ConditionStatus} {a : Attester} {w1 : World}
    {l : List Write} {e : Option RErr}
    (h : updateStatus ok w att t s = some (a, w1, l, e)) :
    w1.registry = w.registry := by
  unfold updateStatus at h
  split at h
  case h_1 => exact Option.noConfusion h
  case h_2 =>
    split at h <;>
      (simp only [Option.some.injEq, Prod.mk.injEq] at h
       obtain ⟨h1, h2, h3, h4⟩ := h
       simp [← h2, persistStatus_registry])

theorem updateStatus_some_world_secrets {ok : Bool} {w : World} {att : Attester}
    {t : ConditionType} {s : ConditionStatus} {a : Attester} {w1 : World}
    {l : List Write} {e : Option RErr}
    (h : updateStatus ok w att t s = some (a, w1, l, e)) :
    w1.secrets = w.secrets := by
  unfold updateStatus at h
  split at h
  case h_1 => exact Option.noConfusion h
  case h_2 =>
    split at h <;>
      (simp only [Option.some.injEq, Prod.mk.injEq] at h
       obtain ⟨h1, h2, h3, h4⟩ := h
       simp [← h2, persistStatus_secrets])

theorem updateStatus_some_writes {ok : Bool} {w : World} {att : Attester}
    {t : ConditionType} {s : ConditionStatus} {a : Attester} {w1 : World}
    {l : List Write} {e : Option RErr}
    (h : updateStatus ok w att t s = some (a, w1, l, e)) :
    l = [Write.statusUpdate] ∨ l = [] := by
  unfold updateStatus at h
  split at h
  case h_1 => exact Option.noConfusion h
  case h_2 =>
    split at h <;>
      (simp only [Option.some.injEq, Prod.mk.injEq] at h
       obtain ⟨h1, h2, h3, h4⟩ := h
       simp [← h3])

theorem updateStatus_some_resource {ok : Bool} {w : World} {att : Attester}
    {t : ConditionType} {s : ConditionStatus} {a : Attester} {w1 : World}
    {l : List Write} {e : Option RErr} (a0 : Attester)
    (h : updateStatus ok w att t s = some (a, w1, l, e))
    (r : w.resource = some a0) :
    ∃ a2, w1.resource = some a2 ∧ a2.finalizers = a0.finalizers := by
  unfold updateStatus at h
  split at h
  case h_1 => exact Option.noConfusion h
  case h_2 =>
    split at h <;>
      (simp only [Option.some.injEq, Prod.mk.injEq] at h
       obtain ⟨h1, h2, h3, h4⟩ := h
       subst h2
       simp [persistStatus, r])

/-! Lemmas about the compile gate and the secret phase. -/

theorem secretPhase_panicked (env : Env) (req : Req) (w : World) (att : Attester)
    (p : Policy) (ws : List Write) (h : att.conditions.length = 2) :
    (secretPhase env req w att p ws).panicked = false := by
  obtain ⟨c0, c1, hc⟩ := List.length_eq_two.mp h
  simp only [secretPhase, updateStatus, setCond, hc]
  repeat' split
  all_goals first
    | rfl
    | simp_all [ite_some_some_ne_none]

theorem afterInit_panicked (env : Env) (req : Req) (w : World) (att : Attester)
    (ws : List Write) (h : att.conditions.length = 2) :
    (afterInit env req w att ws).panicked = false := by
  obtain ⟨c0, c1, hc⟩ := List.length_eq_two.mp h
  simp only [afterInit, updateStatus, setCond, hc, List.head?]
  repeat' split
  all_goals first
    | rfl
    | (apply secretPhase_panicked; simp [hc])
    | simp_all [ite_some_some_ne_none]

theorem deletionBranch_panicked (env : Env) (req : Req) (w : World) (att : Attester)
    (ws : List Write) : (deletionBranch env req w att ws).panicked = false := by
  unfold deletionBranch
  repeat' split
  all_goals rfl

theorem afterInit_registry_none (env : Env) (req : Req) (w : World) (att : Attester)
    (ws : List Write) (id : String)
    (h2 : env.compile req.name att.policySrc = none ∨
          att.conditions.head?.map Condition.status ≠ some ConditionStatus.ctrue)
    (hreg : lookupA w.registry id = none) :
    lookupA (afterInit env req w att ws).world.registry id = none := by
  unfold afterInit
  repeat' split
  all_goals first
    | simpa using hreg
    | (rename_i a w1 l e heq
       rw [updateStatus_some_world_registry heq]
       exact hreg)
    | simp_all [bne_iff_ne]

theorem afterInit_converged (env : Env) (req : Req) (w : World) (att : Attester)
    (ws : List Write) (km : KeyMaterial) (p : Policy) (sg : Signer)
    (r : w.resource = some att)
    (c : att.conditions = [⟨ConditionType.compiled, ConditionStatus.ctrue⟩,
                           ⟨ConditionType.secret, ConditionStatus.ctrue⟩])
    (g : att.pgpSecret ≠ "")
    (s : lookupA w.secrets att.pgpSecret = some km)
    (q : env.parseSigner km = some sg)
    (o : env.compile req.name att.policySrc = some p)
    (u : env.getSecretStoreOk = true)
    (v : env.secretTrueParseStatusOk = true) :
    afterInit env req w att ws =
      ⟨{ w with registry := insertA w.registry (NamespacedNameString req)
                  (NewAttester (NamespacedNameString req) p sg) },
        ws ++ [Write.statusUpdate], none, false⟩ := by
  obtain ⟨res, secs, reg⟩ := w
  obtain ⟨dp, fins, ps, pgp, conds⟩ := att
  simp only [] at c r s o g
  subst c
  subst r
  simp [afterInit, secretPhase, updateStatus, setCond, persistStatus,
        o, q, s, u, v, g]

theorem secretPhase_create_finalizers (env : Env) (req : Req) (w : World)
    (att : Attester) (p : Policy) (ws : List Write) (a0 : Attester)
    (r : w.resource = some a0)
    (m : Write.secretCreate ∉ ws) :
    Write.secretCreate ∈ (secretPhase env req w att p ws).writes →
    ∃ a2, (secretPhase env req w att p ws).world.resource = some a2 ∧
          a2.finalizers = a0.finalizers := by
  unfold secretPhase
  repeat' split
  all_goals intro hmem
  all_goals try (exfalso; revert hmem; simp [List.mem_append, m]; done)
  all_goals rename_i heq
  all_goals try
    (rcases updateStatus_some_writes heq with hw | hw <;>
      (exfalso; revert hmem; subst hw; simp [List.mem_append, m]; done))
  all_goals
    (revert hmem
     simp only []
     split
     case _ =>
       intro hmem
       exact ⟨a0, by simpa using r, rfl⟩
     case _ =>
       rename_i a w2 ws2 e2 heq3
       intro hmem
       obtain ⟨a2, h1, h2⟩ := updateStatus_some_resource a0 heq3 (by simpa using r)
       exact ⟨a2, by simpa using h1, h2⟩)

theorem afterInit_create_finalizers (env : Env) (req : Req) (w : World)
    (att : Attester) (ws : List Write) (a0 : Attester)
    (r : w.resource = some a0)
    (m : Write.secretCreate ∉ ws) :
    Write.secretCreate ∈ (afterInit env req w att ws).writes →
    ∃ a2, (afterInit env req w att ws).world.resource = some a2 ∧
          a2.finalizers = a0.finalizers := by
  unfold afterInit
  repeat' split
  all_goals intro hmem
  all_goals try (exfalso; revert hmem; simp [List.mem_append, m]; done)
  all_goals try (exact secretPhase_create_finalizers env req w att _ ws a0 r m hmem)
  all_goals rename_i heq
  all_goals
    (rcases updateStatus_some_writes heq with hw | hw <;>
      (exfalso; revert hmem; subst hw; simp [List.mem_append, m]; done))

/-! Claim C1. -/

/-- Claim C1, counterexample: along the concrete event trace `traceC1`
(three converging passes, an external edit of the policy source to a
non-compiling one, then one more pass that persists `Compiled=False`),
the registry returned by `ListAttesters` still holds the entry for
`default/test` while the stored `Compiled` condition is `False`, so the
claimed invariant fails on a reachable state. -/
theorem C1_counterexample :
    lookupA (ListAttesters wC1) (NamespacedNameString req1) =
      some (NewAttester "default/test" 1 7) ∧
    storedCompiledStatus wC1 = some ConditionStatus.cfalse := by decide

/-- Claim C1, amended: a reconciliation pass never creates a registry
entry for an identity that had none, when the fetched resource either
fails to compile or does not carry a `True` `Compiled` condition at slot
zero; in particular a compile-failing pass adds no entry.  (A previously
published entry is, however, not removed on compile failure, as the
counterexample shows.) -/
theorem C1_publish_requires_compiled_true (env : Env) (req : Req) (w : World)
    (att : Attester) (id : String)
    (r : w.resource = some att)
    (h2 : env.compile req.name att.policySrc = none ∨
          att.conditions.head?.map Condition.status ≠ some ConditionStatus.ctrue)
    (hreg : lookupA w.registry id = none) :
    lookupA (Reconcile env req w).world.registry id = none := by
  by_cases hg : env.getOk = true
  · simp only [Reconcile, hg, if_true, r]
    split
    · simp only [deletionBranch]
      split
      · split <;>
          (apply lookupA_eraseA_none
           simpa [persistUpdate_registry, registerFinalizer_world_registry] using hreg)
      · simpa [registerFinalizer_world_registry] using hreg
    · split
      · split
        · apply afterInit_registry_none
          · right
            simp [initConds]
          · simpa [persistStatus_registry, registerFinalizer_world_registry] using hreg
        · simpa [registerFinalizer_world_registry] using hreg
      · apply afterInit_registry_none
        · rw [registerFinalizer_att_policySrc, registerFinalizer_att_conditions]
          exact h2
        · simpa [registerFinalizer_world_registry] using hreg
  · simpa [Reconcile, hg] using hreg

/-- Witness for the theorem of claim C1 at a concrete input. -/
theorem C1_publish_requires_compiled_true_witness :
    wBad.resource = some attBad ∧
    (envOk.compile req1.name attBad.policySrc = none ∨
     attBad.conditions.head?.map Condition.status ≠ some ConditionStatus.ctrue) ∧
    lookupA wBad.registry "default/test" = none ∧
    lookupA (Reconcile envOk req1 wBad).world.registry "default/test" = none :=
  ⟨by decide, Or.inl (by decide), by decide,
   C1_publish_requires_compiled_true envOk req1 wBad attBad "default/test"
     (by decide) (Or.inl (by decide)) (by decide)⟩

/-! Claim C2. -/

/-- Claim C2, counterexample: for the concrete resource `attBad` whose
policy source fails to compile, the pass persists `Compiled=False` but
returns no error at all (the compile error is overwritten by the nil
result of the status update), so the compilation error is not reported to
the caller as the claim states. -/
theorem C2_counterexample :
    envOk.compile req1.name attBad.policySrc = none ∧
    (Reconcile envOk req1 wBad).res = none ∧
    storedCompiledStatus (Reconcile envOk req1 wBad).world =
      some ConditionStatus.cfalse := by decide

/-- Claim C2, amended: on compile failure the pass sets `Compiled=False`
(persisting it when the status write succeeds), stops without any secret
handling or registry publish, but returns the outcome of the status
update — nil on success, the status-update error on failure — while the
compilation error itself is only logged. -/
theorem C2_compile_failure_outcome (env : Env) (req : Req) (w : World) (att : Attester)
    (r : w.resource = some att)
    (e : env.getOk = true)
    (d : att.deletionPending = false)
    (n : att.conditions ≠ [])
    (o : env.compile req.name att.policySrc = none) :
    (env.compiledFalseStatusOk = true →
       (Reconcile env req w).res = none ∧
       ∃ a, (Reconcile env req w).world.resource = some a ∧
         a.conditions.head?.map Condition.status = some ConditionStatus.cfalse) ∧
    (env.compiledFalseStatusOk = false →
       (Reconcile env req w).res = some RErr.statusErr) ∧
    (Reconcile env req w).world.registry = w.registry ∧
    (Reconcile env req w).world.secrets = w.secrets := by
  obtain ⟨c0, rest, hc⟩ := List.exists_cons_of_ne_nil n
  have hstep : Reconcile env req w =
      afterInit env req ((registerFinalizer env w att).2.1)
        ((registerFinalizer env w att).1) ((registerFinalizer env w att).2.2) := by
    simp only [Reconcile, e, if_true, r]
    rw [registerFinalizer_att_deletionPending, registerFinalizer_att_conditions, d, hc]
    simp
  obtain ⟨a1, ha1, hc1⟩ := registerFinalizer_resource env w att r d
  have hcomp1 : env.compile req.name ((registerFinalizer env w att).1).policySrc = none := by
    rw [registerFinalizer_att_policySrc]
    exact o
  have hconds1 : ((registerFinalizer env w att).1).conditions = c0 :: rest := by
    rw [registerFinalizer_att_conditions]
    exact hc
  rw [hstep]
  simp only [afterInit, hcomp1, updateStatus, setCond, hconds1]
  refine ⟨?_, ?_, ?_, ?_⟩
  · intro h
    simp [h, persistStatus, ha1]
  · intro h
    simp [h]
  · by_cases h : env.compiledFalseStatusOk = true <;>
      simp [h, persistStatus_registry, registerFinalizer_world_registry]
  · by_cases h : env.compiledFalseStatusOk = true <;>
      simp [h, persistStatus_secrets, registerFinalizer_world_secrets]

/-- Witness for the theorem of claim C2 at a concrete input. -/
theorem C2_compile_failure_outcome_witness :
    wBad.resource = some attBad ∧
    envOk.getOk = true ∧
    attBad.deletionPending = false ∧
    attBad.conditions ≠ [] ∧
    envOk.compile req1.name attBad.policySrc = none ∧
    ((envOk.compiledFalseStatusOk = true →
        (Reconcile envOk req1 wBad).res = none ∧
        ∃ a, (Reconcile envOk req1 wBad).world.resource = some a ∧
          a.conditions.head?.map Condition.status = some ConditionStatus.cfalse) ∧
     (envOk.compiledFalseStatusOk = false →
        (Reconcile envOk req1 wBad).res = some RErr.statusErr) ∧
     (Reconcile envOk req1 wBad).world.registry = wBad.registry ∧
     (Reconcile envOk req1 wBad).world.secrets = wBad.secrets) :=
  ⟨by decide, by decide, by decide, by decide, by decide,
   C2_compile_failure_outcome envOk req1 wBad attBad
     (by decide) (by decide) (by decide) (by decide) (by decide)⟩

/-! Claim C3. -/

/-- Claim C3, counterexample: starting from the converged world `wConv`,
a first call completes successfully (nil result), yet the immediately
following second call with no external change still issues one persisted
write — the status update re-asserting `SecretReady=True` — so the second
call is not free of persisted writes as the claim states. -/
theorem C3_counterexample :
    (Reconcile envOk req1 wConv).res = none ∧
    (Reconcile envOk req1 (Reconcile envOk req1 wConv).world).writes =
      [Write.statusUpdate] ∧
    (Reconcile envOk req1 (Reconcile envOk req1 wConv).world).writes ≠ [] := by decide

/-- Claim C3, amended: a pass over a fully converged resource (the state
produced by a successful first call, unchanged externally) performs
exactly one persisted write — a status update rewriting `SecretReady` to
its existing `True` value, leaving the stored resource and secret store
unchanged — returns nil, and re-publishes the same registry entry
produced by the deterministic recompile. -/
theorem C3_second_pass_single_redundant_write (env : Env) (req : Req) (w : World)
    (att : Attester) (km : KeyMaterial) (p : Policy) (sg : Signer)
    (r : w.resource = some att)
    (e : env.getOk = true)
    (d : att.deletionPending = false)
    (f : containsFinalizer att.finalizers attesterFinalizerName = true)
    (c : att.conditions = [⟨ConditionType.compiled, ConditionStatus.ctrue⟩,
                           ⟨ConditionType.secret, ConditionStatus.ctrue⟩])
    (g : att.pgpSecret ≠ "")
    (s : lookupA w.secrets att.pgpSecret = some km)
    (q : env.parseSigner km = some sg)
    (o : env.compile req.name att.policySrc = some p)
    (u : env.getSecretStoreOk = true)
    (v : env.secretTrueParseStatusOk = true) :
    (Reconcile env req w).writes = [Write.statusUpdate] ∧
    (Reconcile env req w).res = none ∧
    (Reconcile env req w).world.resource = w.resource ∧
    (Reconcile env req w).world.secrets = w.secrets ∧
    lookupA (Reconcile env req w).world.registry (NamespacedNameString req) =
      some (NewAttester (NamespacedNameString req) p sg) := by
  have hstep : Reconcile env req w = afterInit env req w att [] := by
    simp [Reconcile, e, r, registerFinalizer, d, f, c]
  rw [hstep, afterInit_converged env req w att [] km p sg r c g s q o u v]
  simp [lookupA_insertA]

/-- Witness for the theorem of claim C3 at a concrete input. -/
theorem C3_second_pass_single_redundant_write_witness :
    wConv.resource = some attConv ∧
    containsFinalizer attConv.finalizers attesterFinalizerName = true ∧
    lookupA wConv.secrets attConv.pgpSecret = some "km" ∧
    envOk.parseSigner "km" = some 7 ∧
    envOk.compile req1.name attConv.policySrc = some 1 ∧
    ((Reconcile envOk req1 wConv).writes = [Write.statusUpdate] ∧
     (Reconcile envOk req1 wConv).res = none ∧
     (Reconcile envOk req1 wConv).world.resource = wConv.resource ∧
     (Reconcile envOk req1 wConv).world.secrets = wConv.secrets ∧
     lookupA (Reconcile envOk req1 wConv).world.registry (NamespacedNameString req1) =
       some (NewAttester (NamespacedNameString req1) 1 7)) :=
  ⟨by decide, by decide, by decide, by decide, by decide,
   C3_second_pass_single_redundant_write envOk req1 wConv attConv "km" 1 7
     (by decide) (by decide) (by decide) (by decide) (by decide) (by decide)
     (by decide) (by decide) (by decide) (by decide) (by decide)⟩

/-! Claim C4. -/

/-- Claim C4, counterexample: in the concrete deletion-branch pass on
`wDel` with a failing secret deletion, `Reconcile` returns the
secret-deletion error to the dispatcher (the registry entry is removed
all the same), so the error is not swallowed as the claim states. -/
theorem C4_counterexample :
    (Reconcile envDelFail req1 wDel).res = some RErr.deleteSecretErr ∧
    (Reconcile envDelFail req1 wDel).world.registry = [] := by decide

/-- Claim C4, amended: in the deletion branch, after the finalizer
removal persisted, a failing secret deletion is logged and the registry
entry is still removed, but the pass returns the secret-deletion error to
the dispatcher rather than swallowing it; the secret store is left
unchanged by the failed deletion. -/
theorem C4_deletion_error_returned (env : Env) (req : Req) (w : World) (att : Attester)
    (r : w.resource = some att)
    (e : env.getOk = true)
    (d : att.deletionPending = true)
    (f : containsFinalizer att.finalizers attesterFinalizerName = true)
    (u : env.removeFinalizerUpdateOk = true)
    (x : env.deleteSecretOk = false) :
    (Reconcile env req w).res = some RErr.deleteSecretErr ∧
    (Reconcile env req w).world.registry = eraseA w.registry (NamespacedNameString req) ∧
    (Reconcile env req w).world.secrets = w.secrets := by
  have hstep : Reconcile env req w = deletionBranch env req w att [] := by
    simp [Reconcile, e, r, registerFinalizer, d, f]
  rw [hstep]
  simp [deletionBranch, u, x, persistUpdate_registry, persistUpdate_secrets]

/-- Witness for the theorem of claim C4 at a concrete input. -/
theorem C4_deletion_error_returned_witness :
    wDel.resource = some attDel ∧
    attDel.deletionPending = true ∧
    containsFinalizer attDel.finalizers attesterFinalizerName = true ∧
    envDelFail.removeFinalizerUpdateOk = true ∧
    envDelFail.deleteSecretOk = false ∧
    ((Reconcile envDelFail req1 wDel).res = some RErr.deleteSecretErr ∧
     (Reconcile envDelFail req1 wDel).world.registry =
       eraseA wDel.registry (NamespacedNameString req1) ∧
     (Reconcile envDelFail req1 wDel).world.secrets = wDel.secrets) :=
  ⟨by decide, by decide, by decide, by decide, by decide,
   C4_deletion_error_returned envDelFail req1 wDel attDel
     (by decide) (by decide) (by decide) (by decide) (by decide) (by decide)⟩

/-! Claim C5. -/

/-- Claim C5: in a deletion-branch pass, the finalizer removal is
persisted strictly before the secret deletion is attempted — when the
persist of the removal fails, the pass returns the update error with no
writes, the secret store and the registry untouched; when it succeeds,
the first persisted write of the pass is that resource update. -/
theorem C5_removal_before_secret_deletion (env : Env) (req : Req) (w : World)
    (att : Attester)
    (r : w.resource = some att)
    (e : env.getOk = true)
    (d : att.deletionPending = true)
    (f : containsFinalizer att.finalizers attesterFinalizerName = true) :
    (env.removeFinalizerUpdateOk = false →
       (Reconcile env req w).res = some RErr.updateErr ∧
       (Reconcile env req w).writes = [] ∧
       (Reconcile env req w).world = w) ∧
    (env.removeFinalizerUpdateOk = true →
       ∃ rest, (Reconcile env req w).writes = Write.update :: rest) := by
  have hstep : Reconcile env req w = deletionBranch env req w att [] := by
    simp [Reconcile, e, r, registerFinalizer, d, f]
  rw [hstep]
  constructor
  · intro h
    simp [deletionBranch, h]
  · intro h
    by_cases h2 : env.deleteSecretOk = true <;> simp [deletionBranch, h, h2]

/-- Witness for the theorem of claim C5 at a concrete input. -/
theorem C5_removal_before_secret_deletion_witness :
    wDel.resource = some attDel ∧
    envNoRemove.getOk = true ∧
    attDel.deletionPending = true ∧
    containsFinalizer attDel.finalizers attesterFinalizerName = true ∧
    ((envNoRemove.removeFinalizerUpdateOk = false →
        (Reconcile envNoRemove req1 wDel).res = some RErr.updateErr ∧
        (Reconcile envNoRemove req1 wDel).writes = [] ∧
        (Reconcile envNoRemove req1 wDel).world = wDel) ∧
     (envNoRemove.removeFinalizerUpdateOk = true →
        ∃ rest, (Reconcile envNoRemove req1 wDel).writes = Write.update :: rest)) :=
  ⟨by decide, by decide, by decide, by decide,
   C5_removal_before_secret_deletion envNoRemove req1 wDel attDel
     (by decide) (by decide) (by decide) (by decide)⟩

/-! Claim C6. -/

/-- Claim C6, counterexample: when the finalizer-registration `Update`
fails (the error is only logged), the same pass still proceeds and
creates the signing secret, while the stored resource carries no
finalizer — so a secret is created for a resource whose deletion-guard
marker was never persisted, contradicting the claim. -/
theorem C6_counterexample :
    Write.secretCreate ∈ (Reconcile envNoFin req1 wNoFin).writes ∧
    storedFinalizers (Reconcile envNoFin req1 wNoFin).world = some [] := by decide

/-- Claim C6, amended: the marker registration is attempted before any
secret creation, but a failure to persist the marker is only logged and
the pass continues; when the finalizer `Update` succeeds, every pass that
creates a secret leaves the deletion-guard marker persisted on the stored
resource. -/
theorem C6_marker_persisted_when_update_succeeds (env : Env) (req : Req) (w : World)
    (att : Attester)
    (r : w.resource = some att)
    (e : env.getOk = true)
    (d : att.deletionPending = false)
    (y : env.finalizerUpdateOk = true) :
    Write.secretCreate ∈ (Reconcile env req w).writes →
    ∃ a2, (Reconcile env req w).world.resource = some a2 ∧
          containsFinalizer a2.finalizers attesterFinalizerName = true := by
  obtain ⟨a1, ha1, hm1⟩ := registerFinalizer_marker env w att r d y
  have hws1 : Write.secretCreate ∉ (registerFinalizer env w att).2.2 := by
    rcases registerFinalizer_writes env w att with h | h <;> simp [h]
  have hcond : ((registerFinalizer env w att).1.deletionPending &&
      containsFinalizer ((registerFinalizer env w att).1).finalizers attesterFinalizerName) = false := by
    rw [registerFinalizer_att_deletionPending, d]
    simp
  simp only [Reconcile, e, if_true, r]
  simp only [hcond, Bool.false_eq_true, if_false]
  split
  · split
    · intro hmem
      obtain ⟨a2, h1, h2⟩ :=
        afterInit_create_finalizers env req _ _ _
          ({ a1 with conditions := initConds })
          (by simp [persistStatus, ha1]) (by simp [hws1]) hmem
      refine ⟨a2, h1, ?_⟩
      rw [h2]
      exact hm1
    · intro hmem
      exact absurd hmem (by simpa using hws1)
  · intro hmem
    obtain ⟨a2, h1, h2⟩ :=
      afterInit_create_finalizers env req _ _ _ a1 ha1 hws1 hmem
    refine ⟨a2, h1, ?_⟩
    rw [h2]
    exact hm1

/-- Witness for the theorem of claim C6 at a concrete input on which the
pass does create a secret (`wNoFin` stores no secret, so the pass takes
the creation path, and the finalizer `Update` succeeds), making the
certified implication non-vacuous. -/
theorem C6_marker_persisted_when_update_succeeds_witness :
    wNoFin.resource = some attNoFin ∧
    envOk.getOk = true ∧
    attNoFin.deletionPending = false ∧
    envOk.finalizerUpdateOk = true ∧
    Write.secretCreate ∈ (Reconcile envOk req1 wNoFin).writes ∧
    (Write.secretCreate ∈ (Reconcile envOk req1 wNoFin).writes →
     ∃ a2, (Reconcile envOk req1 wNoFin).world.resource = some a2 ∧
           containsFinalizer a2.finalizers attesterFinalizerName = true) :=
  ⟨by decide, by decide, by decide, by decide, by decide,
   C6_marker_persisted_when_update_succeeds envOk req1 wNoFin attNoFin
     (by decide) (by decide) (by decide) (by decide)⟩

/-! Claim C7. -/

/-- Claim C7: on a resource with an empty conditions list (and not in the
deletion branch), the pass appends exactly the two conditions of
`initConds` — `Compiled` at slot zero and `SecretReady` at slot one, both
`False` — persists them as one status update, and continues the same pass
to the compile gate, which issues one further status update before the
pass ends with a nil result. -/
theorem C7_condition_init (env : Env) (req : Req) (w : World) (att : Attester)
    (r : w.resource = some att)
    (e : env.getOk = true)
    (d : att.deletionPending = false)
    (c : att.conditions = [])
    (y : env.finalizerUpdateOk = true)
    (i : env.initStatusOk = true)
    (u : env.compiledFalseStatusOk = true)
    (t : env.compiledTrueStatusOk = true) :
    initConds = [⟨ConditionType.compiled, ConditionStatus.cfalse⟩,
                 ⟨ConditionType.secret, ConditionStatus.cfalse⟩] ∧
    (Reconcile env req w).writes =
      (if containsFinalizer att.finalizers attesterFinalizerName = true then ([] : List Write)
       else [Write.update]) ++ [Write.statusUpdate, Write.statusUpdate] ∧
    (Reconcile env req w).res = none ∧
    ∃ a, (Reconcile env req w).world.resource = some a ∧
      a.conditions =
        [⟨ConditionType.compiled,
          if (env.compile req.name att.policySrc).isSome = true then ConditionStatus.ctrue
          else ConditionStatus.cfalse⟩,
         ⟨ConditionType.secret, ConditionStatus.cfalse⟩] := by
  obtain ⟨res, secs, reg⟩ := w
  obtain ⟨dp, fins, ps, pgp, conds⟩ := att
  simp only [] at r c d
  subst r
  subst c
  subst d
  by_cases hf : containsFinalizer fins attesterFinalizerName = true <;>
    cases ho : env.compile req.name ps <;>
      simp [Reconcile, e, registerFinalizer, persistUpdate, persistStatus, afterInit,
            updateStatus, setCond, initConds, hf, ho, i, u, t, y]

/-- Witness for the theorem of claim C7 at a concrete input. -/
theorem C7_condition_init_witness :
    wInit.resource = some attInit ∧
    attInit.deletionPending = false ∧
    attInit.conditions = [] ∧
    envOk.initStatusOk = true ∧
    (initConds = [⟨ConditionType.compiled, ConditionStatus.cfalse⟩,
                  ⟨ConditionType.secret, ConditionStatus.cfalse⟩] ∧
     (Reconcile envOk req1 wInit).writes =
       (if containsFinalizer attInit.finalizers attesterFinalizerName = true then ([] : List Write)
        else [Write.update]) ++ [Write.statusUpdate, Write.statusUpdate] ∧
     (Reconcile envOk req1 wInit).res = none ∧
     ∃ a, (Reconcile envOk req1 wInit).world.resource = some a ∧
       a.conditions =
         [⟨ConditionType.compiled,
           if (envOk.compile req1.name attInit.policySrc).isSome = true then ConditionStatus.ctrue
           else ConditionStatus.cfalse⟩,
          ⟨ConditionType.secret, ConditionStatus.cfalse⟩]) :=
  ⟨by decide, by decide, by decide, by decide,
   C7_condition_init envOk req1 wInit attInit
     (by decide) (by decide) (by decide) (by decide) (by decide) (by decide)
     (by decide) (by decide)⟩

/-! Claim C8. -/

/-- Claim C8: when the resource has `Compiled=True`, an assigned secret
reference whose stored secret exists but whose key material fails to
parse, the pass sets `SecretReady=False` and persists it, leaves the
`Compiled` condition at slot zero unchanged (still `True`), returns nil,
and neither adds nor replaces a registry entry; the secret store is
untouched. -/
theorem C8_malformed_key_material (env : Env) (req : Req) (w : World) (att : Attester)
    (km : KeyMaterial) (p : Policy) (cs : ConditionStatus)
    (r : w.resource = some att)
    (e : env.getOk = true)
    (d : att.deletionPending = false)
    (f : containsFinalizer att.finalizers attesterFinalizerName = true)
    (c : att.conditions = [⟨ConditionType.compiled, ConditionStatus.ctrue⟩,
                           ⟨ConditionType.secret, cs⟩])
    (g : att.pgpSecret ≠ "")
    (u : env.getSecretStoreOk = true)
    (s : lookupA w.secrets att.pgpSecret = some km)
    (q : env.parseSigner km = none)
    (v : env.secretFalseParseStatusOk = true)
    (o : env.compile req.name att.policySrc = some p) :
    (Reconcile env req w).res = none ∧
    (Reconcile env req w).world.registry = w.registry ∧
    (Reconcile env req w).world.secrets = w.secrets ∧
    ∃ a, (Reconcile env req w).world.resource = some a ∧
      a.conditions = [⟨ConditionType.compiled, ConditionStatus.ctrue⟩,
                      ⟨ConditionType.secret, ConditionStatus.cfalse⟩] := by
  have hstep : Reconcile env req w = afterInit env req w att [] := by
    simp [Reconcile, e, r, registerFinalizer, d, f, c]
  rw [hstep]
  obtain ⟨res, secs, reg⟩ := w
  obtain ⟨dp, fins, ps, pgp, conds⟩ := att
  simp only [] at c r s o g
  subst c
  subst r
  simp [afterInit, secretPhase, updateStatus, setCond, persistStatus,
        o, q, s, u, v, g]

/-- Witness for the theorem of claim C8 at a concrete input. -/
theorem C8_malformed_key_material_witness :
    wParse.resource = some attParse ∧
    lookupA wParse.secrets attParse.pgpSecret = some "garbage" ∧
    envOk.parseSigner "garbage" = none ∧
    envOk.compile req1.name attParse.policySrc = some 1 ∧
    ((Reconcile envOk req1 wParse).res = none ∧
     (Reconcile envOk req1 wParse).world.registry = wParse.registry ∧
     (Reconcile envOk req1 wParse).world.secrets = wParse.secrets ∧
     ∃ a, (Reconcile envOk req1 wParse).world.resource = some a ∧
       a.conditions = [⟨ConditionType.compiled, ConditionStatus.ctrue⟩,
                       ⟨ConditionType.secret, ConditionStatus.cfalse⟩]) :=
  ⟨by decide, by decide, by decide, by decide,
   C8_malformed_key_material envOk req1 wParse attParse "garbage" 1 ConditionStatus.ctrue
     (by decide) (by decide) (by decide) (by decide) (by decide) (by decide)
     (by decide) (by decide) (by decide) (by decide) (by decide)⟩

/-! Claim C9. -/

/-- Claim C9: for a fetched resource whose conditions list is empty or of
length two (the only shapes the lifecycle produces), no indexed access to
condition slots zero or one during the pass goes out of bounds — the
modelled panic branch is unreachable, for every environment and request. -/
theorem C9_conditions_access_in_bounds (env : Env) (req : Req) (w : World) (att : Attester)
    (r : w.resource = some att)
    (n : att.conditions.length = 0 ∨ att.conditions.length = 2) :
    (Reconcile env req w).panicked = false := by
  by_cases hg : env.getOk = true
  · simp only [Reconcile, hg, if_true, r]
    split
    · exact deletionBranch_panicked _ _ _ _ _
    · split
      · split
        · exact afterInit_panicked _ _ _ _ _ (by simp [initConds])
        · rfl
      · rename_i hne
        apply afterInit_panicked
        rw [registerFinalizer_att_conditions]
        rw [registerFinalizer_att_conditions] at hne
        rcases n with h0 | h2
        · exact absurd (by simpa [List.isEmpty_iff] using List.length_eq_zero.mp h0) hne
        · exact h2
  · simp [Reconcile, hg]

/-- Witness for the theorem of claim C9 at a concrete input. -/
theorem C9_conditions_access_in_bounds_witness :
    w0.resource = some att0 ∧
    (att0.conditions.length = 0 ∨ att0.conditions.length = 2) ∧
    (Reconcile envOk req1 w0).panicked = false :=
  ⟨by decide, Or.inl (by decide),
   C9_conditions_access_in_bounds envOk req1 w0 att0 (by decide) (Or.inl (by decide))⟩

/-! Claim C10. -/

/-- Claim C10: a resource marked for deletion but lacking the
deletion-guard marker does not take the deletion branch and does not get
the marker re-added — the pass runs the normal path as if the resource
were live: with `Compiled` already `True` it performs secret handling and
publishes the registry entry, leaving the stored resource and the secret
store untouched. -/
theorem C10_deletion_without_marker (env : Env) (req : Req) (w : World) (att : Attester)
    (km : KeyMaterial) (p : Policy) (sg : Signer)
    (r : w.resource = some att)
    (e : env.getOk = true)
    (d : att.deletionPending = true)
    (f : containsFinalizer att.finalizers attesterFinalizerName = false)
    (c : att.conditions = [⟨ConditionType.compiled, ConditionStatus.ctrue⟩,
                           ⟨ConditionType.secret, ConditionStatus.ctrue⟩])
    (g : att.pgpSecret ≠ "")
    (s : lookupA w.secrets att.pgpSecret = some km)
    (q : env.parseSigner km = some sg)
    (o : env.compile req.name att.policySrc = some p)
    (u : env.getSecretStoreOk = true)
    (v : env.secretTrueParseStatusOk = true) :
    (Reconcile env req w).world.resource = some att ∧
    (Reconcile env req w).world.secrets = w.secrets ∧
    (Reconcile env req w).res = none ∧
    lookupA (Reconcile env req w).world.registry (NamespacedNameString req) =
      some (NewAttester (NamespacedNameString req) p sg) := by
  have hstep : Reconcile env req w = afterInit env req w att [] := by
    simp [Reconcile, e, r, registerFinalizer, d, f, c]
  rw [hstep, afterInit_converged env req w att [] km p sg r c g s q o u v]
  simp [lookupA_insertA, r]

/-- Witness for the theorem of claim C10 at a concrete input. -/
theorem C10_deletion_without_marker_witness :
    wDelNoFin.resource = some attDelNoFin ∧
    attDelNoFin.deletionPending = true ∧
    containsFinalizer attDelNoFin.finalizers attesterFinalizerName = false ∧
    lookupA wDelNoFin.secrets attDelNoFin.pgpSecret = some "km" ∧
    ((Reconcile envOk req1 wDelNoFin).world.resource = some attDelNoFin ∧
     (Reconcile envOk req1 wDelNoFin).world.secrets = wDelNoFin.secrets ∧
     (Reconcile envOk req1 wDelNoFin).res = none ∧
     lookupA (Reconcile envOk req1 wDelNoFin).world.registry (NamespacedNameString req1) =
       some (NewAttester (NamespacedNameString req1) 1 7)) :=
  ⟨by decide, by decide, by decide, by decide,
   C10_deletion_without_marker envOk req1 wDelNoFin attDelNoFin "km" 1 7
     (by decide) (by decide) (by decide) (by decide) (by decide) (by decide)
     (by decide) (by decide) (by decide) (by decide) (by decide)⟩

end Rode
